import Mathlib

/-!
Verification development for the niri_window_buttons module.

This file gives a shallow embedding of the event-reconciliation core of the
module (`src/compositor.rs`: the `WindowTracker` state machine and its
snapshot generator) and of the notification-to-window matcher
(`src/lib.rs`: `ModuleInstance::handle_notification`), together with
theorems about the claimed properties of those functions.

Modelling conventions:
- Rust `u64` / `u8` / `usize` identifiers and indices become `Nat`;
  process ids (`i32` / `i64`) become `Int`.
- `BTreeMap<u64, V>` becomes a key-sorted association list
  `List (Nat × V)`; `values()` iteration is `map Prod.snd`, which visits
  values in ascending key order exactly as `BTreeMap` does.
- `HashMap` collected from an iterator (used for `active_workspace_per_output`
  and the pid → window map) is modelled by its observable lookup behaviour:
  the last inserted binding for a key wins.
- The GTK side effects (`button.mark_urgent()`) are modelled by returning the
  list of window ids that were marked, in marking order; `self.buttons` is
  modelled by the list of window ids that currently have a button.
- The blocking process-ancestry query is modelled as a function
  `Int → Option (Option Int)`: `some (some p)` is `Ok` with a parent,
  `some none` is `Ok` with no parent, `none` is `Err`.  The unbounded Rust
  `loop` gets an explicit fuel parameter.
-/

namespace NiriWindowButtons

/-- Model of `niri_ipc::Window::layout` restricted to the field the module
reads: `pos_in_scrolling_layout : Option<(usize, usize)>`, the `(column, row)`
tiling position; `none` means the window is floating. -/
structure WindowLayout where
  pos_in_scrolling_layout : Option (Nat × Nat)
deriving DecidableEq, Repr

/-- Model of `niri_ipc::Window`, restricted to the fields the module reads. -/
structure Window where
  id : Nat
  title : Option String
  app_id : Option String
  pid : Option Int
  workspace_id : Option Nat
  is_focused : Bool
  layout : WindowLayout
deriving DecidableEq, Repr

/-- Model of `niri_ipc::Workspace`, restricted to the fields the module reads. -/
structure Workspace where
  id : Nat
  idx : Nat
  output : Option String
  is_active : Bool
deriving DecidableEq, Repr

/-! ### Key-sorted association lists modelling `BTreeMap<u64, V>` -/

/-- `BTreeMap::get`. -/
def lookupKey (m : List (Nat × α)) (k : Nat) : Option α :=
  match m with
  | [] => none
  | (k1, v) :: rest => if k = k1 then some v else lookupKey rest k

/-- `BTreeMap::insert`: insert or replace, keeping keys in ascending order. -/
def insertSorted (k : Nat) (v : α) : List (Nat × α) → List (Nat × α)
  | [] => [(k, v)]
  | (k1, v1) :: rest =>
      if k < k1 then (k, v) :: (k1, v1) :: rest
      else if k = k1 then (k, v) :: rest
      else (k1, v1) :: insertSorted k v rest

/-- `BTreeMap::remove` (the module ignores the returned value). -/
def eraseKey (k : Nat) : List (Nat × α) → List (Nat × α)
  | [] => []
  | (k1, v1) :: rest =>
      if k = k1 then rest else (k1, v1) :: eraseKey k rest

/-- `windows.iter().map(|w| (w.id, w.clone())).collect::<BTreeMap<_, _>>()`:
repeated insertion, later duplicates overwriting earlier ones. -/
def fromWindowList (l : List Window) : List (Nat × Window) :=
  l.foldl (fun m w => insertSorted w.id w m) []

/-- `workspaces.into_iter().map(|w| (w.id, w)).collect::<BTreeMap<_, _>>()`. -/
def fromWorkspaceList (l : List Workspace) : List (Nat × Workspace) :=
  l.foldl (fun m w => insertSorted w.id w m) []

/-! ### The tracker state machine (`WindowTracker` in `src/compositor.rs`) -/

/-- `TrackerState` from `src/compositor.rs`.  The Rust field
`state: Option<TrackerState>` is modelled as `Option TrackerState`, `none`
being the uninitialized tracker. -/
inductive TrackerState where
  | windowsOnly (windows : List Window)
  | workspacesOnly (workspaces : List Workspace)
  | ready (windows : List (Nat × Window)) (workspaces : List (Nat × Workspace))
      (active_per_workspace : List (Nat × Nat))
      (last_focused_per_workspace : List (Nat × Nat))
deriving DecidableEq, Repr

/-- The compositor events consumed by `WindowTracker::process_event`.
`other` stands for every event kind the tracker ignores (the `_ => {}` arm). -/
inductive Event where
  | windowsChanged (windows : List Window)
  | workspacesChanged (workspaces : List Workspace)
  | windowClosed (id : Nat)
  | windowOpenedOrChanged (window : Window)
  | windowFocusChanged (id : Option Nat)
  | workspaceActivated (id : Nat) (focused : Bool)
  | workspaceActiveWindowChanged (workspace_id : Nat) (active_window_id : Option Nat)
  | windowLayoutsChanged (changes : List (Nat × WindowLayout))
  | other
deriving DecidableEq, Repr

/-- The state-mutation part of `WindowTracker::process_event`
(`src/compositor.rs` lines 341-450): the `match event` block that updates
`self.state`.  Each arm is a direct transcription of the Rust arm. -/
def applyEvent (s : Option TrackerState) (e : Event) : Option TrackerState :=
  match e with
  | .windowsChanged windows =>
      match s with
      | some (.workspacesOnly ws) =>
          some (.ready (fromWindowList windows) (fromWorkspaceList ws) [] [])
      | some (.ready _ workspaces apw lfw) =>
          some (.ready (fromWindowList windows) workspaces apw lfw)
      | _ => some (.windowsOnly windows)
  | .workspacesChanged workspaces =>
      match s with
      | some (.windowsOnly wins) =>
          some (.ready (fromWindowList wins) (fromWorkspaceList workspaces) [] [])
      | some (.ready windows _ apw lfw) =>
          some (.ready windows (fromWorkspaceList workspaces) apw lfw)
      | _ => some (.workspacesOnly workspaces)
  | .windowClosed id =>
      match s with
      | some (.ready w ws apw lfw) => some (.ready (eraseKey id w) ws apw lfw)
      | _ => s
  | .windowOpenedOrChanged window =>
      match s with
      | some (.ready w ws apw lfw) =>
          let w0 := if window.is_focused
            then w.map (fun p => (p.1, { p.2 with is_focused := false }))
            else w
          some (.ready (insertSorted window.id window w0) ws apw lfw)
      | _ => s
  | .windowFocusChanged id =>
      match s with
      | some (.ready w ws apw lfw) =>
          let lfw1 :=
            match (w.map Prod.snd).find? (fun win => win.is_focused) with
            | some oldw =>
                match lookupKey w oldw.id with
                | some window =>
                    match window.workspace_id with
                    | some wsid => insertSorted wsid oldw.id lfw
                    | none => lfw
                | none => lfw
            | none => lfw
          let w1 := w.map (fun p => (p.1, { p.2 with is_focused := some p.2.id == id }))
          let lfw2 :=
            match id with
            | some fid =>
                match lookupKey w1 fid with
                | some window =>
                    match window.workspace_id with
                    | some wsid => insertSorted wsid fid lfw1
                    | none => lfw1
                | none => lfw1
            | none => lfw1
          some (.ready w1 ws apw lfw2)
      | _ => s
  | .workspaceActivated id _ =>
      match s with
      | some (.ready w ws apw lfw) =>
          let activated_output := (lookupKey ws id).bind (fun x => x.output)
          let ws1 := ws.map (fun p =>
            if p.2.output == activated_output
              then (p.1, { p.2 with is_active := p.2.id == id })
              else p)
          some (.ready w ws1 apw lfw)
      | _ => s
  | .workspaceActiveWindowChanged workspace_id active_window_id =>
      match s with
      | some (.ready w ws apw lfw) =>
          let apw1 :=
            match active_window_id with
            | some win_id => insertSorted workspace_id win_id apw
            | none => eraseKey workspace_id apw
          some (.ready w ws apw1 lfw)
      | _ => s
  | .windowLayoutsChanged changes =>
      match s with
      | some (.ready w ws apw lfw) =>
          let w1 := changes.foldl (fun m c =>
            match lookupKey m c.1 with
            | some _ => m.map (fun p => if p.1 = c.1 then (p.1, { p.2 with layout := c.2 }) else p)
            | none => m) w
          some (.ready w1 ws apw lfw)
      | _ => s
  | .other => s

/-! ### The snapshot generator (`WindowTracker::generate_snapshot`) -/

/-- The `WindowWithWorkspace` pairing struct local to `generate_snapshot`. -/
structure WindowWithWorkspace where
  window : Window
  workspace : Workspace
deriving DecidableEq, Repr

/-- The output entity `WindowInfo`: a window copy plus the resolved output
name of its workspace. -/
structure WindowInfo where
  inner : Window
  output_name : Option String
deriving DecidableEq, Repr

/-- The `(output, workspace id)` pairs inserted into
`active_workspace_per_output` in insertion order: active workspaces, in
ascending workspace-id order, that have an output name. -/
def activeOutputPairs (workspaces : List (Nat × Workspace)) : List (String × Nat) :=
  ((workspaces.map Prod.snd).filter (fun ws => ws.is_active)).filterMap
    (fun ws => ws.output.map (fun output => (output, ws.id)))

/-- `HashMap` lookup for a map built by repeated insertion: the last
inserted binding for the key wins. -/
def hashLookup (l : List (String × Nat)) (k : String) : Option Nat :=
  ((l.filter (fun p => p.1 == k)).getLast?).map Prod.snd

/-- The candidate-list construction of `generate_snapshot`
(`src/compositor.rs` lines 478-497): windows whose `workspace_id` resolves to
a known workspace, dropping windows on non-active workspaces when
`filter_workspace` is set. -/
def buildCandidates (windows : List (Nat × Window)) (workspaces : List (Nat × Workspace))
    (filter_workspace : Bool) : List WindowWithWorkspace :=
  (windows.map Prod.snd).filterMap (fun window =>
    window.workspace_id.bind (fun ws_id =>
      (lookupKey workspaces ws_id).bind (fun ws =>
        if filter_workspace then
          let is_active_on_output :=
            ((ws.output.bind (fun output =>
                hashLookup (activeOutputPairs workspaces) output)).map
              (fun active_ws_id => active_ws_id == ws.id)).getD false
          if !is_active_on_output then none
          else some ⟨window, ws⟩
        else some ⟨window, ws⟩)))

/-- `bool::cmp`: `false < true`, as in Rust's `Ord for bool`. -/
def boolCmp (a b : Bool) : Ordering :=
  match a, b with
  | false, true => .lt
  | true, false => .gt
  | _, _ => .eq

/-- The sort comparator of `generate_snapshot` (`src/compositor.rs` lines
499-513): workspace `idx`, then floating flag (tiled first), then tiling
position `(column, row)` with `(0, 0)` default, then window id. -/
def cmpCandidates (a b : WindowWithWorkspace) : Ordering :=
  (((compare a.workspace.idx b.workspace.idx).then
      (boolCmp a.window.layout.pos_in_scrolling_layout.isNone
        b.window.layout.pos_in_scrolling_layout.isNone)).then
    ((compare (a.window.layout.pos_in_scrolling_layout.getD (0, 0)).1
        (b.window.layout.pos_in_scrolling_layout.getD (0, 0)).1).then
      (compare (a.window.layout.pos_in_scrolling_layout.getD (0, 0)).2
        (b.window.layout.pos_in_scrolling_layout.getD (0, 0)).2))).then
  (compare a.window.id b.window.id)

/-- `Vec::sort_by` with `cmpCandidates`.  Rust's `sort_by` is a stable sort
placing `a` no later than `b` whenever `cmpCandidates a b ≠ Greater`; since
`cmpCandidates` is a total preorder, every stable sorting algorithm produces
the same output, so it is modelled by stable insertion sort. -/
def sortCandidates (l : List WindowWithWorkspace) : List WindowWithWorkspace :=
  List.insertionSort (fun a b => (cmpCandidates a b).isLE = true) l

/-- `workspaces.values().find(|ws| ws.is_active).map(|ws| ws.id)`: the first
active workspace in ascending workspace-id order. -/
def firstActiveWorkspace (workspaces : List (Nat × Workspace)) : Option Nat :=
  ((workspaces.map Prod.snd).find? (fun ws => ws.is_active)).map (fun ws => ws.id)

/-- The highlight-window resolution of `generate_snapshot`
(`src/compositor.rs` lines 515-531), applied to the sorted candidate list. -/
def highlightWindow (sortedPairs : List WindowWithWorkspace)
    (workspaces : List (Nat × Workspace))
    (active_per_workspace last_focused_per_workspace : List (Nat × Nat)) : Option Nat :=
  let active_workspace := firstActiveWorkspace workspaces
  let overview_active := active_workspace.bind (fun ws_id => lookupKey active_per_workspace ws_id)
  let has_focused := sortedPairs.any (fun pair => pair.window.is_focused)
  if !has_focused then
    ((overview_active.or
        (active_workspace.bind (fun ws_id => lookupKey last_focused_per_workspace ws_id))).or
      (active_workspace.bind (fun active_ws =>
        (sortedPairs.find? (fun pair => pair.workspace.id == active_ws)).map
          (fun pair => pair.window.id))))
  else none

/-- `WindowTracker::generate_snapshot` (`src/compositor.rs` lines 459-550). -/
def generateSnapshot (windows : List (Nat × Window)) (workspaces : List (Nat × Workspace))
    (active_per_workspace last_focused_per_workspace : List (Nat × Nat))
    (filter_workspace : Bool) : List WindowInfo :=
  let pairs := sortCandidates (buildCandidates windows workspaces filter_workspace)
  let highlight_window :=
    highlightWindow pairs workspaces active_per_workspace last_focused_per_workspace
  pairs.map (fun pair =>
    let window_copy :=
      if !pair.window.is_focused && (some pair.window.id == highlight_window)
        then { pair.window with is_focused := true }
        else pair.window
    ⟨window_copy, pair.workspace.output⟩)

/-- `WindowTracker::process_event` (`src/compositor.rs` lines 338-457):
mutate the state, then return a snapshot exactly when the resulting state is
`Ready`. -/
def processEvent (s : Option TrackerState) (e : Event) (filter_workspace : Bool) :
    Option TrackerState × Option (List WindowInfo) :=
  let s1 := applyEvent s e
  (s1,
    match s1 with
    | some (.ready w ws apw lfw) =>
        some (generateSnapshot w ws apw lfw filter_workspace)
    | _ => none)

/-- Whether a tracker state is `Ready`. -/
def isReady : Option TrackerState → Bool
  | some (.ready _ _ _ _) => true
  | _ => false

/-! ### The notification matcher (`ModuleInstance::handle_notification`) -/

/-- The notification data consumed by `handle_notification`: an optional
originating process id and an optional desktop-entry hint. -/
structure NotificationData where
  process_id : Option Int
  desktop_entry : Option String
deriving DecidableEq, Repr

/-- The settings fields read by `handle_notification`
(`Settings::notifications_use_desktop_entry`,
`Settings::notifications_use_fuzzy_matching`,
`Settings::notifications_app_map` backed by the `map_app_ids` table). -/
structure NotifSettings where
  use_desktop_entry : Bool
  use_fuzzy_matching : Bool
  map_app_ids : List (String × String)
deriving DecidableEq, Repr

/-- `Settings::notifications_app_map`: `HashMap::get` on `map_app_ids`
(keys unique, so first match suffices). -/
def appMapLookup (m : List (String × String)) (k : String) : Option String :=
  (m.find? (fun p => p.1 == k)).map Prod.snd

/-- `ProcessWindowMap::build` + `lookup` (`src/lib.rs` lines 577-591):
a `HashMap` from pid to window over windows exposing a pid, built by
insertion in snapshot order, so the last window with a given pid wins. -/
def processMapLookup (windows : List WindowInfo) (pid : Int) : Option WindowInfo :=
  (((windows.filterMap (fun w => w.inner.pid.map (fun p => (p, w)))).filter
      (fun q => q.1 == pid)).getLast?).map Prod.snd

/-- The PID ancestry loop of `handle_notification` (`src/lib.rs` lines
374-399).  `ancestry p` models `ProcessInfo::query(p)`: `some (some q)` is
`Ok` with parent `q`, `some none` is `Ok` with no parent, `none` is `Err`.
Returns the ids marked urgent (in marking order) and the number of ancestry
queries made.  The Rust `loop` is unbounded; `fuel` cuts it off, with
`(([], 0))` standing for the truncated remainder. -/
def ancestryWalk (processMap : Int → Option WindowInfo) (buttons : List Nat)
    (ancestry : Int → Option (Option Int)) : Nat → Int → List Nat × Nat
  | 0, _ => ([], 0)
  | fuel + 1, process_id =>
      let flags :=
        match processMap process_id with
        | some window =>
            if !window.inner.is_focused && buttons.contains window.inner.id
              then [window.inner.id] else []
        | none => []
      match ancestry process_id with
      | some (some parent) =>
          let rec_result := ancestryWalk processMap buttons ancestry fuel parent
          (flags ++ rec_result.1, rec_result.2 + 1)
      | some none => (flags, 1)
      | none => (flags, 1)

/-- Rust `str::split('.')` on the character list of a string: splits at every
dot, yielding at least one (possibly empty) segment, with an empty final
segment after a trailing dot — exactly the segments Rust's iterator yields. -/
def splitOnDot : List Char → List (List Char)
  | [] => [[]]
  | c :: rest =>
      if c = '.' then [] :: splitOnDot rest
      else
        match splitOnDot rest with
        | [] => [[c]]
        | seg :: segs => (c :: seg) :: segs

/-- `mapped_entry.split('.').next_back().unwrap_or_default()`: the text after
the last dot (the whole string when there is no dot). -/
def lastSegment (s : String) : String :=
  ⟨((splitOnDot s.data).getLast?).getD []⟩

/-- Rust `str::to_lowercase`, restricted to the simple per-character lowercase
mapping (the module only compares ASCII app ids). -/
def lowerStr (s : String) : String :=
  ⟨s.data.map Char.toLower⟩

/-- Rust `str::contains('.')`. -/
def containsDot (s : String) : Bool :=
  s.data.contains '.'

/-- Accumulator of the desktop-entry scan loop in `handle_notification`:
ids marked urgent so far, the `exact_match` flag, and `fuzzy_matches`. -/
structure ScanState where
  flagged : List Nat
  exact_match : Bool
  fuzzy_matches : List Nat
deriving DecidableEq, Repr

/-- One iteration of the `for window in windows.iter()` scan of
`handle_notification` (`src/lib.rs` lines 428-455). -/
def scanStep (buttons : List Nat) (fuzzy_enabled : Bool)
    (mapped_entry entry_lower entry_suffix : String)
    (st : ScanState) (w : WindowInfo) : ScanState :=
  match w.inner.app_id with
  | none => st
  | some app_identifier =>
      if app_identifier == mapped_entry then
        if buttons.contains w.inner.id then
          { st with flagged := st.flagged ++ [w.inner.id], exact_match := true }
        else st
      else if fuzzy_enabled then
        if lowerStr app_identifier == entry_lower then
          { st with fuzzy_matches := st.fuzzy_matches ++ [w.inner.id] }
        else if containsDot app_identifier then
          if lowerStr (lastSegment app_identifier) == entry_suffix then
            { st with fuzzy_matches := st.fuzzy_matches ++ [w.inner.id] }
          else st
        else st
      else st

/-- The desktop-entry phase of `handle_notification` (`src/lib.rs` lines
418-463), given the desktop entry from the notification hints: returns the
ids marked urgent, in marking order. -/
def desktopEntryPhase (settings : NotifSettings) (buttons : List Nat)
    (windows : List WindowInfo) (desktop_entry : String) : List Nat :=
  let mapped_entry := (appMapLookup settings.map_app_ids desktop_entry).getD desktop_entry
  let entry_lower := lowerStr mapped_entry
  let entry_suffix := lowerStr (lastSegment mapped_entry)
  let st := windows.foldl
    (scanStep buttons settings.use_fuzzy_matching mapped_entry entry_lower entry_suffix)
    ⟨[], false, []⟩
  if !st.exact_match then
    st.flagged ++ st.fuzzy_matches.filter (fun id => buttons.contains id)
  else st.flagged

/-- `ModuleInstance::handle_notification` (`src/lib.rs` lines 362-464),
modelled as the list of window ids marked urgent, in marking order.
`previous_snapshot` and `buttons` model the corresponding `ModuleInstance`
fields; `ancestry` and `fuel` model the external process-ancestry queries as
in `ancestryWalk`. -/
def handleNotification (previous_snapshot : Option (List WindowInfo)) (buttons : List Nat)
    (settings : NotifSettings) (ancestry : Int → Option (Option Int)) (fuel : Nat)
    (notification : NotificationData) : List Nat :=
  match previous_snapshot with
  | none => []
  | some windows =>
      let pidFlags :=
        match notification.process_id with
        | some process_id =>
            (ancestryWalk (processMapLookup windows) buttons ancestry fuel process_id).1
        | none => []
      if !pidFlags.isEmpty then pidFlags
      else if !settings.use_desktop_entry then pidFlags
      else
        match notification.desktop_entry with
        | none => pidFlags
        | some desktop_entry =>
            pidFlags ++ desktopEntryPhase settings buttons windows desktop_entry

/-! ### Derived observations used by the theorems -/

/-- The window map of a `Ready` state (empty for other states). -/
def stateWindows : Option TrackerState → List (Nat × Window)
  | some (.ready w _ _ _) => w
  | _ => []

/-- Number of windows with `is_focused = true` in a window map. -/
def focusedWindowCount (m : List (Nat × Window)) : Nat :=
  ((m.map Prod.snd).filter (fun w => w.is_focused)).length

lemma focusedWindowCount_nil : focusedWindowCount [] = 0 := rfl

lemma focusedWindowCount_cons (k : Nat) (v : Window) (t : List (Nat × Window)) :
    focusedWindowCount ((k, v) :: t)
      = (if v.is_focused then 1 else 0) + focusedWindowCount t := by
  by_cases h : v.is_focused <;>
    simp [focusedWindowCount, List.filter_cons, h, Nat.add_comm]

lemma focusedWindowCount_clear (m : List (Nat × Window)) :
    focusedWindowCount (m.map (fun p => (p.1, { p.2 with is_focused := false }))) = 0 := by
  induction m with
  | nil => rfl
  | cons p t ih => simpa [focusedWindowCount_cons] using ih

lemma focusedWindowCount_insert_unfocused (k : Nat) (win : Window)
    (hw : win.is_focused = false) (m : List (Nat × Window)) :
    focusedWindowCount (insertSorted k win m) ≤ focusedWindowCount m := by
  induction m with
  | nil => simp [insertSorted, focusedWindowCount_cons, focusedWindowCount_nil, hw]
  | cons p t ih =>
      obtain ⟨k1, v1⟩ := p
      simp only [insertSorted]
      split
      · simp [focusedWindowCount_cons, hw]
      · split
        · rw [focusedWindowCount_cons, focusedWindowCount_cons, hw]
          simp
        · rw [focusedWindowCount_cons, focusedWindowCount_cons]
          omega

lemma focusedWindowCount_insert_focused (k : Nat) (win : Window)
    (hw : win.is_focused = true) (m : List (Nat × Window))
    (hm : focusedWindowCount m = 0) :
    focusedWindowCount (insertSorted k win m) = 1 := by
  induction m with
  | nil => simp [insertSorted, focusedWindowCount_cons, focusedWindowCount_nil, hw]
  | cons p t ih =>
      obtain ⟨k1, v1⟩ := p
      rw [focusedWindowCount_cons] at hm
      have hv1 : v1.is_focused = false := by
        by_cases h : v1.is_focused
        · rw [h] at hm; simp at hm
        · exact (Bool.not_eq_true _).mp h
      rw [hv1] at hm
      simp only [Bool.false_eq_true, if_false, Nat.zero_add] at hm
      simp only [insertSorted]
      split
      · simp [focusedWindowCount_cons, hw, hv1, hm]
      · split
        · simp [focusedWindowCount_cons, hw, hm]
        · rw [focusedWindowCount_cons, hv1, ih hm]
          simp

lemma focusedWindowCount_setFocus_zero (oid : Option Nat) (t : List (Nat × Window))
    (h : ∀ q ∈ t, ¬ some q.2.id = oid) :
    focusedWindowCount
      (t.map (fun p => (p.1, { p.2 with is_focused := some p.2.id == oid }))) = 0 := by
  induction t with
  | nil => rfl
  | cons q r ih =>
      rw [List.map_cons, focusedWindowCount_cons]
      have hq : (some q.2.id == oid) = false := by
        rcases hb : some q.2.id == oid
        · rfl
        · exact absurd (beq_iff_eq.mp hb) (h q (.head _))
      rw [hq]
      simpa using ih (fun x hx => h x (.tail _ hx))

lemma focusedWindowCount_setFocus_le_one (oid : Option Nat) (w : List (Nat × Window))
    (hd : (w.map (fun p => p.2.id)).Pairwise (fun a b => a ≠ b)) :
    focusedWindowCount
      (w.map (fun p => (p.1, { p.2 with is_focused := some p.2.id == oid }))) ≤ 1 := by
  induction w with
  | nil => simp [focusedWindowCount_nil]
  | cons p t ih =>
      simp only [List.map_cons, List.pairwise_cons] at hd
      obtain ⟨hhead, htail⟩ := hd
      rw [List.map_cons, focusedWindowCount_cons]
      by_cases h : (some p.2.id == oid) = true
      · have hoid : oid = some p.2.id := (beq_iff_eq.mp h).symm
        have hz : focusedWindowCount
            (t.map (fun q => (q.1, { q.2 with is_focused := some q.2.id == oid }))) = 0 := by
          refine focusedWindowCount_setFocus_zero oid t (fun q hq => ?_)
          rw [hoid]
          intro hcontra
          exact hhead q.2.id (List.mem_map.mpr ⟨q, hq, rfl⟩) (Option.some_inj.mp hcontra).symm
        rw [hz]
        simp [h]
      · have h' : (some p.2.id == oid) = false := by
          rcases hb : some p.2.id == oid
          · rfl
          · exact absurd hb h
        rw [h']
        simpa using ih htail

/-! ### C1 -/

/-- C1, counterexample.  The claim asserts focus exclusivity after a
`WindowOpenedOrChanged` event "regardless of the focus flags in the state
before the event".  But `WindowsChanged` installs the event's window list
verbatim, so a `Ready` state can hold two focused windows, and a subsequent
`WindowOpenedOrChanged` whose window is not focused leaves both intact:
after `WindowsChanged [w1 focused, w2 focused]`, `WorkspacesChanged [ws]`,
`WindowOpenedOrChanged (w3 unfocused)`, the `Ready` window map holds two
focused windows. -/
theorem C1_counterexample :
    isReady (applyEvent (applyEvent (applyEvent none
        (.windowsChanged
          [⟨1, none, none, none, some 10, true, ⟨none⟩⟩,
           ⟨2, none, none, none, some 10, true, ⟨none⟩⟩]))
        (.workspacesChanged [⟨10, 0, some "DP-1", true⟩]))
        (.windowOpenedOrChanged ⟨3, none, none, none, some 10, false, ⟨none⟩⟩)) = true
    ∧ focusedWindowCount (stateWindows (applyEvent (applyEvent (applyEvent none
        (.windowsChanged
          [⟨1, none, none, none, some 10, true, ⟨none⟩⟩,
           ⟨2, none, none, none, some 10, true, ⟨none⟩⟩]))
        (.workspacesChanged [⟨10, 0, some "DP-1", true⟩]))
        (.windowOpenedOrChanged ⟨3, none, none, none, some 10, false, ⟨none⟩⟩))) = 2 := by
  constructor <;> rfl

/-- C1, amended: in a `Ready` state whose window map carries pairwise
distinct window ids, (a) a `WindowFocusChanged` event always leaves at most
one focused window, regardless of the focus flags before the event; (b) a
`WindowOpenedOrChanged` event whose window is focused leaves exactly one
focused window; (c) a `WindowOpenedOrChanged` event preserves the
exclusivity invariant: if at most one window was focused before, at most one
is focused after.  (The unconditional form of the claim fails for
`WindowOpenedOrChanged` with an unfocused window, see the counterexample.) -/
theorem C1_amended (w : List (Nat × Window)) (ws : List (Nat × Workspace))
    (apw lfw : List (Nat × Nat)) (oid : Option Nat) (win : Window)
    (hd : (w.map (fun p => p.2.id)).Pairwise (fun a b => a ≠ b)) :
    focusedWindowCount (stateWindows
        (applyEvent (some (.ready w ws apw lfw)) (.windowFocusChanged oid))) ≤ 1
    ∧ (win.is_focused = true →
        focusedWindowCount (stateWindows
          (applyEvent (some (.ready w ws apw lfw)) (.windowOpenedOrChanged win))) = 1)
    ∧ (focusedWindowCount w ≤ 1 →
        focusedWindowCount (stateWindows
          (applyEvent (some (.ready w ws apw lfw)) (.windowOpenedOrChanged win))) ≤ 1) := by
  refine ⟨?_, ?_, ?_⟩
  · simpa [applyEvent, stateWindows] using focusedWindowCount_setFocus_le_one oid w hd
  · intro hf
    simp only [applyEvent, stateWindows, hf, if_pos]
    exact focusedWindowCount_insert_focused _ _ hf _ (focusedWindowCount_clear w)
  · intro hle
    by_cases hf : win.is_focused
    · simp only [applyEvent, stateWindows, hf, if_true]
      rw [focusedWindowCount_insert_focused _ _ hf _ (focusedWindowCount_clear w)]
    · have hf' : win.is_focused = false := (Bool.not_eq_true _).mp hf
      simp only [applyEvent, stateWindows, hf', Bool.false_eq_true, if_false]
      exact le_trans (focusedWindowCount_insert_unfocused _ _ hf' w) hle

/-- C1, witness for the amended theorem at a concrete `Ready` state with two
windows. -/
theorem C1_amended_witness :
    focusedWindowCount (stateWindows
        (applyEvent (some (.ready
          [(1, ⟨1, none, none, none, some 10, false, ⟨none⟩⟩),
           (2, ⟨2, none, none, none, some 10, true, ⟨none⟩⟩)] [] [] []))
          (.windowFocusChanged (some 1)))) ≤ 1 :=
  (C1_amended
    [(1, ⟨1, none, none, none, some 10, false, ⟨none⟩⟩),
     (2, ⟨2, none, none, none, some 10, true, ⟨none⟩⟩)] [] [] []
    (some 1) ⟨3, none, none, none, none, false, ⟨none⟩⟩ (by decide)).1

/-! ### C2 -/

/-- C2: `process_event` returns a snapshot exactly when the state after
applying the event is `Ready`, for every event kind and every starting
state. -/
theorem C2_snapshot_iff_ready (s : Option TrackerState) (e : Event) (f : Bool) :
    ((processEvent s e f).2).isSome = isReady (processEvent s e f).1 := by
  simp only [processEvent]
  cases applyEvent s e with
  | none => rfl
  | some t => cases t <;> rfl

/-! ### C3 -/

/-- C3: once `Ready`, the tracker stays `Ready` under every event, and a
later `WindowsChanged` (resp. `WorkspacesChanged`) replaces only the window
(resp. workspace) map, preserving the other map and the active/last-focused
maps. -/
theorem C3_ready_is_absorbing :
    (∀ (s : Option TrackerState) (e : Event),
      isReady s = true → isReady (applyEvent s e) = true)
    ∧ (∀ (w : List (Nat × Window)) (ws : List (Nat × Workspace))
        (apw lfw : List (Nat × Nat)) (wl : List Window),
        applyEvent (some (.ready w ws apw lfw)) (.windowsChanged wl)
          = some (.ready (fromWindowList wl) ws apw lfw))
    ∧ (∀ (w : List (Nat × Window)) (ws : List (Nat × Workspace))
        (apw lfw : List (Nat × Nat)) (wsl : List Workspace),
        applyEvent (some (.ready w ws apw lfw)) (.workspacesChanged wsl)
          = some (.ready w (fromWorkspaceList wsl) apw lfw)) := by
  refine ⟨?_, fun _ _ _ _ _ => rfl, fun _ _ _ _ _ => rfl⟩
  intro s e h
  match s, h with
  | some (.ready w ws apw lfw), _ => cases e <;> rfl

/-- C3, witness: a concrete `Ready` state stays `Ready` under a
`WindowClosed` event. -/
theorem C3_ready_is_absorbing_witness :
    isReady (applyEvent (some (.ready [] [(10, ⟨10, 0, none, true⟩)] [] []))
      (.windowClosed 5)) = true :=
  C3_ready_is_absorbing.1 (some (.ready [] [(10, ⟨10, 0, none, true⟩)] [] []))
    (.windowClosed 5) rfl

/-! ### C9 -/

/-- C9: replaying an identical `WindowsChanged` (or `WorkspacesChanged`)
event twice in immediate succession is idempotent, on both the resulting
state and the returned snapshot, from every starting state. -/
theorem C9_wholesale_replay_idempotent (s : Option TrackerState) (f : Bool)
    (wl : List Window) (wsl : List Workspace) :
    processEvent (processEvent s (.windowsChanged wl) f).1 (.windowsChanged wl) f
      = processEvent s (.windowsChanged wl) f
    ∧ processEvent (processEvent s (.workspacesChanged wsl) f).1 (.workspacesChanged wsl) f
      = processEvent s (.workspacesChanged wsl) f := by
  constructor
  · cases s with
    | none => rfl
    | some t => cases t <;> rfl
  · cases s with
    | none => rfl
    | some t => cases t <;> rfl

/-! ### Ordering lemmas for the sort comparator -/

lemma thenAssoc (x y z : Ordering) : (x.then y).then z = x.then (y.then z) := by
  cases x <;> rfl

lemma natCompare_swap (a b : Nat) : compare a b = (compare b a).swap := by
  rcases Nat.lt_trichotomy a b with h | h | h
  · rw [Nat.compare_eq_lt.mpr h, Nat.compare_eq_gt.mpr h]; rfl
  · subst h; rw [Nat.compare_eq_eq.mpr rfl]; rfl
  · rw [Nat.compare_eq_gt.mpr h, Nat.compare_eq_lt.mpr h]; rfl

lemma natCompare_isLE (a b : Nat) : (compare a b).isLE = true ↔ a ≤ b := by
  rcases Nat.lt_trichotomy a b with h | h | h
  · rw [Nat.compare_eq_lt.mpr h]
    exact ⟨fun _ => Nat.le_of_lt h, fun _ => rfl⟩
  · subst h; rw [Nat.compare_eq_eq.mpr rfl]
    exact ⟨fun _ => Nat.le_refl a, fun _ => rfl⟩
  · rw [Nat.compare_eq_gt.mpr h]
    exact ⟨fun hh => absurd hh (by decide), fun hh => absurd hh (by omega)⟩

lemma natCompare_eq_imp (x y : Nat) : compare x y = .eq → x = y :=
  fun h => Nat.compare_eq_eq.mp h

lemma natCompare_lt_trans (x y z : Nat) :
    compare x y = .lt → compare y z = .lt → compare x z = .lt :=
  fun h1 h2 => Nat.compare_eq_lt.mpr
    (Nat.lt_trans (Nat.compare_eq_lt.mp h1) (Nat.compare_eq_lt.mp h2))

lemma boolCmp_eq_imp : ∀ x y : Bool, boolCmp x y = .eq → x = y := by decide

lemma boolCmp_lt_trans : ∀ x y z : Bool,
    boolCmp x y = .lt → boolCmp y z = .lt → boolCmp x z = .lt := by decide

lemma boolCmp_swap : ∀ x y : Bool, boolCmp x y = (boolCmp y x).swap := by decide

/-- Lexicographic step: `isLE`-transitivity of `(cb (f a) (f b)).then (rest a b)`
given that `cb` identifies on `eq`, is `lt`-transitive, and `rest` is
`isLE`-transitive. -/
lemma lex_isLE_trans {α : Type} {β : Type} (cb : β → β → Ordering)
    (heq : ∀ x y : β, cb x y = .eq → x = y)
    (hlt : ∀ x y z : β, cb x y = .lt → cb y z = .lt → cb x z = .lt)
    (f : α → β) (rest : α → α → Ordering)
    (hrest : ∀ a b c : α,
      (rest a b).isLE = true → (rest b c).isLE = true → (rest a c).isLE = true)
    (a b c : α)
    (h1 : ((cb (f a) (f b)).then (rest a b)).isLE = true)
    (h2 : ((cb (f b) (f c)).then (rest b c)).isLE = true) :
    ((cb (f a) (f c)).then (rest a c)).isLE = true := by
  cases hx : cb (f a) (f b) with
  | lt =>
      cases hy : cb (f b) (f c) with
      | lt => rw [hlt _ _ _ hx hy]; rfl
      | eq => rw [← heq _ _ hy, hx]; rfl
      | gt => rw [hy] at h2; exact absurd h2 Bool.false_ne_true
  | eq =>
      have hfab : f a = f b := heq _ _ hx
      rw [hx] at h1
      cases hy : cb (f b) (f c) with
      | lt => rw [hfab, hy]; rfl
      | eq =>
          rw [hy] at h2
          rw [hfab, hy]
          exact hrest a b c h1 h2
      | gt => rw [hy] at h2; exact absurd h2 Bool.false_ne_true
  | gt => rw [hx] at h1; exact absurd h1 Bool.false_ne_true

/-- Lexicographic step: `isLE`-totality. -/
lemma lex_isLE_total {α : Type} {β : Type} (cb : β → β → Ordering)
    (hswap : ∀ x y : β, cb x y = (cb y x).swap)
    (f : α → β) (rest : α → α → Ordering)
    (hrest : ∀ a b : α, (rest a b).isLE = true ∨ (rest b a).isLE = true)
    (a b : α) :
    ((cb (f a) (f b)).then (rest a b)).isLE = true
      ∨ ((cb (f b) (f a)).then (rest b a)).isLE = true := by
  cases hx : cb (f a) (f b) with
  | lt => left; rfl
  | eq =>
      have hba : cb (f b) (f a) = .eq := by rw [hswap (f b) (f a), hx]; rfl
      rw [hba]
      rcases hrest a b with h | h
      · left; exact h
      · right; exact h
  | gt =>
      have hba : cb (f b) (f a) = .lt := by rw [hswap (f b) (f a), hx]; rfl
      right; rw [hba]; rfl

/-- Lexicographic step: swapping both arguments swaps the result. -/
lemma lex_swap {α : Type} {β : Type} (cb : β → β → Ordering)
    (hswapb : ∀ x y : β, cb x y = (cb y x).swap)
    (f : α → β) (rest : α → α → Ordering)
    (hrest : ∀ a b : α, rest a b = (rest b a).swap)
    (a b : α) :
    (cb (f a) (f b)).then (rest a b) = ((cb (f b) (f a)).then (rest b a)).swap := by
  rw [Ordering.swap_then, ← hswapb (f a) (f b), ← hrest a b]

/-- Projection: workspace `idx` of a candidate. -/
def keyIdx (p : WindowWithWorkspace) : Nat := p.workspace.idx

/-- Projection: whether the candidate has no tiling position (floating). -/
def keyFloat (p : WindowWithWorkspace) : Bool :=
  p.window.layout.pos_in_scrolling_layout.isNone

/-- Projection: tiling column (with the `(0, 0)` default). -/
def keyCol (p : WindowWithWorkspace) : Nat :=
  (p.window.layout.pos_in_scrolling_layout.getD (0, 0)).1

/-- Projection: tiling row (with the `(0, 0)` default). -/
def keyRow (p : WindowWithWorkspace) : Nat :=
  (p.window.layout.pos_in_scrolling_layout.getD (0, 0)).2

/-- Projection: window id of a candidate. -/
def keyId (p : WindowWithWorkspace) : Nat := p.window.id

/-- Comparator levels below the workspace `idx` level, right-nested. -/
def cmpLevel5 (a b : WindowWithWorkspace) : Ordering := compare (keyId a) (keyId b)

def cmpLevel4 (a b : WindowWithWorkspace) : Ordering :=
  (compare (keyRow a) (keyRow b)).then (cmpLevel5 a b)

def cmpLevel3 (a b : WindowWithWorkspace) : Ordering :=
  (compare (keyCol a) (keyCol b)).then (cmpLevel4 a b)

def cmpLevel2 (a b : WindowWithWorkspace) : Ordering :=
  (boolCmp (keyFloat a) (keyFloat b)).then (cmpLevel3 a b)

/-- `cmpCandidates` in right-nested form. -/
lemma cmpCandidates_normal (a b : WindowWithWorkspace) :
    cmpCandidates a b = (compare (keyIdx a) (keyIdx b)).then (cmpLevel2 a b) := by
  simp only [cmpCandidates, cmpLevel2, cmpLevel3, cmpLevel4, cmpLevel5,
    keyIdx, keyFloat, keyCol, keyRow, keyId, thenAssoc]

lemma cmpLevel5_isLE_trans (a b c : WindowWithWorkspace)
    (h1 : (cmpLevel5 a b).isLE = true) (h2 : (cmpLevel5 b c).isLE = true) :
    (cmpLevel5 a c).isLE = true := by
  simp only [cmpLevel5] at h1 h2 ⊢
  exact (natCompare_isLE _ _).mpr
    (Nat.le_trans ((natCompare_isLE _ _).mp h1) ((natCompare_isLE _ _).mp h2))

lemma cmpLevel4_isLE_trans (a b c : WindowWithWorkspace)
    (h1 : (cmpLevel4 a b).isLE = true) (h2 : (cmpLevel4 b c).isLE = true) :
    (cmpLevel4 a c).isLE = true := by
  simp only [cmpLevel4] at h1 h2 ⊢
  exact lex_isLE_trans compare natCompare_eq_imp natCompare_lt_trans
    keyRow cmpLevel5 cmpLevel5_isLE_trans a b c h1 h2

lemma cmpLevel3_isLE_trans (a b c : WindowWithWorkspace)
    (h1 : (cmpLevel3 a b).isLE = true) (h2 : (cmpLevel3 b c).isLE = true) :
    (cmpLevel3 a c).isLE = true := by
  simp only [cmpLevel3] at h1 h2 ⊢
  exact lex_isLE_trans compare natCompare_eq_imp natCompare_lt_trans
    keyCol cmpLevel4 cmpLevel4_isLE_trans a b c h1 h2

lemma cmpLevel2_isLE_trans (a b c : WindowWithWorkspace)
    (h1 : (cmpLevel2 a b).isLE = true) (h2 : (cmpLevel2 b c).isLE = true) :
    (cmpLevel2 a c).isLE = true := by
  simp only [cmpLevel2] at h1 h2 ⊢
  exact lex_isLE_trans boolCmp boolCmp_eq_imp boolCmp_lt_trans
    keyFloat cmpLevel3 cmpLevel3_isLE_trans a b c h1 h2

lemma cmpCandidates_isLE_trans (a b c : WindowWithWorkspace)
    (h1 : (cmpCandidates a b).isLE = true) (h2 : (cmpCandidates b c).isLE = true) :
    (cmpCandidates a c).isLE = true := by
  rw [cmpCandidates_normal] at h1 h2 ⊢
  exact lex_isLE_trans compare natCompare_eq_imp natCompare_lt_trans
    keyIdx cmpLevel2 cmpLevel2_isLE_trans a b c h1 h2

lemma cmpLevel5_isLE_total (a b : WindowWithWorkspace) :
    (cmpLevel5 a b).isLE = true ∨ (cmpLevel5 b a).isLE = true := by
  simp only [cmpLevel5]
  rcases Nat.le_total (keyId a) (keyId b) with h | h
  · exact Or.inl ((natCompare_isLE _ _).mpr h)
  · exact Or.inr ((natCompare_isLE _ _).mpr h)

lemma cmpLevel4_isLE_total (a b : WindowWithWorkspace) :
    (cmpLevel4 a b).isLE = true ∨ (cmpLevel4 b a).isLE = true := by
  simp only [cmpLevel4]
  exact lex_isLE_total compare natCompare_swap keyRow cmpLevel5 cmpLevel5_isLE_total a b

lemma cmpLevel3_isLE_total (a b : WindowWithWorkspace) :
    (cmpLevel3 a b).isLE = true ∨ (cmpLevel3 b a).isLE = true := by
  simp only [cmpLevel3]
  exact lex_isLE_total compare natCompare_swap keyCol cmpLevel4 cmpLevel4_isLE_total a b

lemma cmpLevel2_isLE_total (a b : WindowWithWorkspace) :
    (cmpLevel2 a b).isLE = true ∨ (cmpLevel2 b a).isLE = true := by
  simp only [cmpLevel2]
  exact lex_isLE_total boolCmp boolCmp_swap keyFloat cmpLevel3 cmpLevel3_isLE_total a b

lemma cmpCandidates_isLE_total (a b : WindowWithWorkspace) :
    (cmpCandidates a b).isLE = true ∨ (cmpCandidates b a).isLE = true := by
  rw [cmpCandidates_normal, cmpCandidates_normal]
  exact lex_isLE_total compare natCompare_swap keyIdx cmpLevel2 cmpLevel2_isLE_total a b

lemma cmpLevel5_swap (a b : WindowWithWorkspace) :
    cmpLevel5 a b = (cmpLevel5 b a).swap := natCompare_swap _ _

lemma cmpLevel4_swap (a b : WindowWithWorkspace) :
    cmpLevel4 a b = (cmpLevel4 b a).swap :=
  lex_swap compare natCompare_swap keyRow cmpLevel5 cmpLevel5_swap a b

lemma cmpLevel3_swap (a b : WindowWithWorkspace) :
    cmpLevel3 a b = (cmpLevel3 b a).swap :=
  lex_swap compare natCompare_swap keyCol cmpLevel4 cmpLevel4_swap a b

lemma cmpLevel2_swap (a b : WindowWithWorkspace) :
    cmpLevel2 a b = (cmpLevel2 b a).swap :=
  lex_swap boolCmp boolCmp_swap keyFloat cmpLevel3 cmpLevel3_swap a b

lemma cmpCandidates_swap (a b : WindowWithWorkspace) :
    cmpCandidates a b = (cmpCandidates b a).swap := by
  rw [cmpCandidates_normal, cmpCandidates_normal]
  exact lex_swap compare natCompare_swap keyIdx cmpLevel2 cmpLevel2_swap a b

lemma cmpCandidates_eq_imp_id (a b : WindowWithWorkspace)
    (h : cmpCandidates a b = .eq) : a.window.id = b.window.id := by
  rw [cmpCandidates_normal] at h
  have h2 := (Ordering.then_eq_eq.mp h).2
  rw [cmpLevel2] at h2
  have h3 := (Ordering.then_eq_eq.mp h2).2
  rw [cmpLevel3] at h3
  have h4 := (Ordering.then_eq_eq.mp h3).2
  rw [cmpLevel4] at h4
  have h5 := (Ordering.then_eq_eq.mp h4).2
  rw [cmpLevel5] at h5
  exact Nat.compare_eq_eq.mp h5

lemma cmpCandidates_lt_of_isLE_of_ne (a b : WindowWithWorkspace)
    (hle : (cmpCandidates a b).isLE = true) (hne : a.window.id ≠ b.window.id) :
    cmpCandidates a b = .lt := by
  cases h : cmpCandidates a b with
  | lt => rfl
  | eq => exact absurd (cmpCandidates_eq_imp_id a b h) hne
  | gt => rw [h] at hle; exact absurd hle (by decide)

lemma cmpCandidates_asymm (a b : WindowWithWorkspace)
    (h1 : cmpCandidates a b = .lt) (h2 : cmpCandidates b a = .lt) : False := by
  have h := cmpCandidates_swap a b
  rw [h1, h2] at h
  exact absurd h (by decide)

/-- Members of the sorted candidate list are exactly the candidates. -/
lemma mem_sortCandidates {p : WindowWithWorkspace} {l : List WindowWithWorkspace} :
    p ∈ sortCandidates l ↔ p ∈ l :=
  (List.perm_insertionSort _ l).mem_iff

/-- On candidate lists with pairwise distinct window ids, the sorted output
is strictly sorted by the comparator. -/
lemma sortCandidates_strict (l : List WindowWithWorkspace)
    (hd : (l.map (fun p => p.window.id)).Pairwise (fun x y => x ≠ y)) :
    (sortCandidates l).Pairwise (fun a b => cmpCandidates a b = .lt) := by
  haveI : IsTotal WindowWithWorkspace (fun a b => (cmpCandidates a b).isLE = true) :=
    ⟨cmpCandidates_isLE_total⟩
  haveI : IsTrans WindowWithWorkspace (fun a b => (cmpCandidates a b).isLE = true) :=
    ⟨cmpCandidates_isLE_trans⟩
  have hsorted := List.sorted_insertionSort (fun a b => (cmpCandidates a b).isLE = true) l
  have hperm : (sortCandidates l).Perm l := List.perm_insertionSort _ l
  have hd' : ((sortCandidates l).map (fun p => p.window.id)).Pairwise (fun x y => x ≠ y) :=
    (List.Perm.pairwise_iff (fun h => Ne.symm h)
      (hperm.map (fun p => p.window.id))).mpr hd
  have hdp : (sortCandidates l).Pairwise (fun a b => a.window.id ≠ b.window.id) :=
    List.pairwise_map.mp hd'
  exact (List.Pairwise.and hsorted hdp).imp
    (fun h => cmpCandidates_lt_of_isLE_of_ne _ _ h.1 h.2)

/-! ### C4 -/

/-- C4: (i) the sort comparator never compares two candidates with distinct
window ids as equal, so the emitted order is total; (ii) sorting is
insensitive to the input order of the candidates (for candidate lists with
pairwise distinct window ids, every permutation sorts to the same list);
(iii) on the same workspace `idx`, a candidate with a tiling position always
compares strictly before one without (tiled before floating). -/
theorem C4_sort_total_order :
    (∀ a b : WindowWithWorkspace,
      a.window.id ≠ b.window.id → cmpCandidates a b ≠ .eq)
    ∧ (∀ l1 l2 : List WindowWithWorkspace, l1.Perm l2 →
        (l1.map (fun p => p.window.id)).Pairwise (fun x y => x ≠ y) →
        sortCandidates l1 = sortCandidates l2)
    ∧ (∀ a b : WindowWithWorkspace, a.workspace.idx = b.workspace.idx →
        a.window.layout.pos_in_scrolling_layout.isSome = true →
        b.window.layout.pos_in_scrolling_layout = none →
        cmpCandidates a b = .lt) := by
  refine ⟨?_, ?_, ?_⟩
  · intro a b hne h
    exact hne (cmpCandidates_eq_imp_id a b h)
  · intro l1 l2 hperm hd1
    have hd2 : (l2.map (fun p => p.window.id)).Pairwise (fun x y => x ≠ y) :=
      (List.Perm.pairwise_iff (fun h => Ne.symm h)
        (hperm.map (fun p => p.window.id))).mp hd1
    have hs1 := sortCandidates_strict l1 hd1
    have hs2 := sortCandidates_strict l2 hd2
    have hperm12 : (sortCandidates l1).Perm (sortCandidates l2) :=
      (List.perm_insertionSort _ l1).trans
        (hperm.trans (List.perm_insertionSort _ l2).symm)
    haveI : IsAntisymm WindowWithWorkspace (fun a b => cmpCandidates a b = .lt) :=
      ⟨fun a b h1 h2 => (cmpCandidates_asymm a b h1 h2).elim⟩
    exact List.eq_of_perm_of_sorted hperm12 hs1 hs2
  · intro a b hidx hpos hbpos
    obtain ⟨v, hv⟩ := Option.isSome_iff_exists.mp hpos
    have hcmp : compare a.workspace.idx b.workspace.idx = .eq :=
      Nat.compare_eq_eq.mpr hidx
    simp only [cmpCandidates]
    rw [hcmp, hv, hbpos]
    rfl

/-- C4, witness: a tiled and a floating candidate on the same workspace,
compared and sorted concretely in both input orders. -/
theorem C4_sort_total_order_witness :
    (cmpCandidates
        ⟨⟨9, none, none, none, some 10, false, ⟨some (2, 1)⟩⟩, ⟨10, 0, none, true⟩⟩
        ⟨⟨5, none, none, none, some 10, false, ⟨none⟩⟩, ⟨10, 0, none, true⟩⟩ ≠ .eq)
    ∧ sortCandidates
        [⟨⟨5, none, none, none, some 10, false, ⟨none⟩⟩, ⟨10, 0, none, true⟩⟩,
         ⟨⟨9, none, none, none, some 10, false, ⟨some (2, 1)⟩⟩, ⟨10, 0, none, true⟩⟩]
      = sortCandidates
        [⟨⟨9, none, none, none, some 10, false, ⟨some (2, 1)⟩⟩, ⟨10, 0, none, true⟩⟩,
         ⟨⟨5, none, none, none, some 10, false, ⟨none⟩⟩, ⟨10, 0, none, true⟩⟩]
    ∧ cmpCandidates
        ⟨⟨9, none, none, none, some 10, false, ⟨some (2, 1)⟩⟩, ⟨10, 0, none, true⟩⟩
        ⟨⟨5, none, none, none, some 10, false, ⟨none⟩⟩, ⟨10, 0, none, true⟩⟩ = .lt := by
  obtain ⟨h1, h2, h3⟩ := C4_sort_total_order
  refine ⟨h1 _ _ (by decide), h2 _ _ (List.Perm.swap _ _ _) (by decide),
    h3 _ _ rfl (by decide) rfl⟩

/-! ### C5 and C10: the highlight fallback chain -/

/-- When no sorted candidate is focused, the highlight resolution is the
three-rule `or`-chain exactly as written in the source. -/
lemma highlightWindow_of_no_focus (sorted : List WindowWithWorkspace)
    (ws : List (Nat × Workspace)) (apw lfw : List (Nat × Nat))
    (hany : sorted.any (fun pair => pair.window.is_focused) = false) :
    highlightWindow sorted ws apw lfw
      = (((firstActiveWorkspace ws).bind (fun ws_id => lookupKey apw ws_id)).or
          ((firstActiveWorkspace ws).bind (fun ws_id => lookupKey lfw ws_id))).or
          ((firstActiveWorkspace ws).bind (fun active_ws =>
            (sorted.find? (fun pair => pair.workspace.id == active_ws)).map
              (fun pair => pair.window.id))) := by
  simp only [highlightWindow, hany, Bool.not_false, if_true]

/-- If every candidate is unfocused, so is every sorted candidate. -/
lemma candidates_any_eq_false (w : List (Nat × Window)) (ws : List (Nat × Workspace))
    (f : Bool) (hnf : ∀ p ∈ buildCandidates w ws f, p.window.is_focused = false) :
    (sortCandidates (buildCandidates w ws f)).any
      (fun pair => pair.window.is_focused) = false := by
  rw [List.any_eq_false]
  intro p hp
  simp [hnf p (mem_sortCandidates.mp hp)]

/-- C5: when no candidate is focused, the highlight window is resolved by
the first applicable rule among (i) `active_per_workspace[active_workspace]`,
(ii) `last_focused_per_workspace[active_workspace]`, (iii) the first sorted
candidate on the active workspace — and in particular, when rule (i) has no
entry for the active workspace `W` and `last_focused_per_workspace[W] = X`,
an emitted window is marked focused exactly when its id is `X`, even though
every candidate (including the registry copy of `X`) is unfocused. -/
theorem C5_highlight_fallback (w : List (Nat × Window)) (ws : List (Nat × Workspace))
    (apw lfw : List (Nat × Nat)) (f : Bool)
    (hnf : ∀ p ∈ buildCandidates w ws f, p.window.is_focused = false) :
    (highlightWindow (sortCandidates (buildCandidates w ws f)) ws apw lfw
      = (((firstActiveWorkspace ws).bind (fun ws_id => lookupKey apw ws_id)).or
          ((firstActiveWorkspace ws).bind (fun ws_id => lookupKey lfw ws_id))).or
          ((firstActiveWorkspace ws).bind (fun active_ws =>
            ((sortCandidates (buildCandidates w ws f)).find?
                (fun pair => pair.workspace.id == active_ws)).map
              (fun pair => pair.window.id))))
    ∧ (∀ W X, firstActiveWorkspace ws = some W → lookupKey apw W = none →
        lookupKey lfw W = some X →
        ∀ wi ∈ generateSnapshot w ws apw lfw f,
          (wi.inner.is_focused = true ↔ wi.inner.id = X)) := by
  have hchain := highlightWindow_of_no_focus (sortCandidates (buildCandidates w ws f))
    ws apw lfw (candidates_any_eq_false w ws f hnf)
  refine ⟨hchain, ?_⟩
  intro W X hW hapw hlfw wi hwi
  have hhl : highlightWindow (sortCandidates (buildCandidates w ws f)) ws apw lfw
      = some X := by
    rw [hchain, hW]
    simp [hapw, hlfw, Option.or]
  simp only [generateSnapshot] at hwi
  rw [hhl] at hwi
  obtain ⟨p, hp, rfl⟩ := List.mem_map.mp hwi
  have hpf : p.window.is_focused = false := hnf p (mem_sortCandidates.mp hp)
  by_cases hid : p.window.id = X
  · have hb : (some p.window.id == some X) = true := beq_iff_eq.mpr (by rw [hid])
    simp [hpf, hb, hid]
  · have hb : (some p.window.id == some X) = false := by
      rcases hbv : some p.window.id == some X
      · rfl
      · exact absurd (Option.some_inj.mp (beq_iff_eq.mp hbv)) hid
    simp [hpf, hb, hid]

/-- C5, witness: a single unfocused candidate window 1 on active workspace
10, with `last_focused_per_workspace[10] = 1` and no
`active_per_workspace` entry: the emitted copy of window 1 is focused. -/
theorem C5_highlight_fallback_witness :
    ((⟨⟨1, none, none, none, some 10, true, ⟨some (0, 0)⟩⟩, some "DP-1"⟩ : WindowInfo).inner.is_focused
        = true
      ↔ (⟨⟨1, none, none, none, some 10, true, ⟨some (0, 0)⟩⟩, some "DP-1"⟩ : WindowInfo).inner.id
        = 1) :=
  (C5_highlight_fallback [(1, ⟨1, none, none, none, some 10, false, ⟨some (0, 0)⟩⟩)]
      [(10, ⟨10, 0, some "DP-1", true⟩)] [] [(10, 1)] false (by decide)).2
    10 1 rfl rfl rfl _ (by decide)

/-- C10 (implicit): when no candidate is focused and the first applicable
highlight rule — rule (i), or rule (ii) when rule (i) yields nothing —
resolves to an id `X` that is not the id of any candidate, the later rules
are not consulted and no emitted window is marked focused at all. -/
theorem C10_stale_highlight_no_override (w : List (Nat × Window))
    (ws : List (Nat × Workspace)) (apw lfw : List (Nat × Nat)) (f : Bool)
    (hnf : ∀ p ∈ buildCandidates w ws f, p.window.is_focused = false)
    (W X : Nat) (hW : firstActiveWorkspace ws = some W)
    (hX : lookupKey apw W = some X
      ∨ (lookupKey apw W = none ∧ lookupKey lfw W = some X))
    (hnc : ∀ p ∈ buildCandidates w ws f, p.window.id ≠ X) :
    ∀ wi ∈ generateSnapshot w ws apw lfw f, wi.inner.is_focused = false := by
  have hchain := highlightWindow_of_no_focus (sortCandidates (buildCandidates w ws f))
    ws apw lfw (candidates_any_eq_false w ws f hnf)
  have hhl : highlightWindow (sortCandidates (buildCandidates w ws f)) ws apw lfw
      = some X := by
    rw [hchain, hW]
    rcases hX with h | ⟨h1, h2⟩
    · simp [h, Option.or]
    · simp [h1, h2, Option.or]
  intro wi hwi
  simp only [generateSnapshot] at hwi
  rw [hhl] at hwi
  obtain ⟨p, hp, rfl⟩ := List.mem_map.mp hwi
  have hpf : p.window.is_focused = false := hnf p (mem_sortCandidates.mp hp)
  have hpne : p.window.id ≠ X := hnc p (mem_sortCandidates.mp hp)
  have hb : (some p.window.id == some X) = false := by
    rcases hbv : some p.window.id == some X
    · rfl
    · exact absurd (Option.some_inj.mp (beq_iff_eq.mp hbv)) hpne
  simp [hpf, hb]

/-- C10, witness: `active_per_workspace[10] = 99` where 99 is no candidate;
the single emitted window stays unfocused. -/
theorem C10_stale_highlight_no_override_witness :
    (⟨⟨1, none, none, none, some 10, false, ⟨some (0, 0)⟩⟩, some "DP-1"⟩ : WindowInfo).inner.is_focused
      = false :=
  C10_stale_highlight_no_override
    [(1, ⟨1, none, none, none, some 10, false, ⟨some (0, 0)⟩⟩)]
    [(10, ⟨10, 0, some "DP-1", true⟩)] [(10, 99)] [] false (by decide)
    10 99 rfl (Or.inl rfl) (by decide) _ (by decide)

/-! ### C6: the PID ancestry walk -/

/-- The flag decision of one walk iteration: the id marked urgent at pid `q`,
if any (known window, not focused, button present). -/
def walkFlag (processMap : Int → Option WindowInfo) (buttons : List Nat) (q : Int) :
    Option Nat :=
  match processMap q with
  | some window =>
      if !window.inner.is_focused && buttons.contains window.inner.id
        then some window.inner.id else none
  | none => none

/-- The pids visited by the walk, in visiting order (cut off by fuel). -/
def ancestryChain (ancestry : Int → Option (Option Int)) : Nat → Int → List Int
  | 0, _ => []
  | fuel + 1, p =>
      p :: (match ancestry p with
        | some (some parent) => ancestryChain ancestry fuel parent
        | _ => [])

/-- Whether the walk reaches a no-parent or failed lookup within `fuel`
iterations (so the fuel cutoff is not exercised). -/
def walkTerminates (ancestry : Int → Option (Option Int)) : Nat → Int → Bool
  | 0, _ => false
  | fuel + 1, p =>
      match ancestry p with
      | some (some parent) => walkTerminates ancestry fuel parent
      | _ => true

lemma walkFlag_toList (pm : Int → Option WindowInfo) (buttons : List Nat) (p : Int) :
    (match pm p with
      | some window =>
          if !window.inner.is_focused && buttons.contains window.inner.id
            then [window.inner.id] else []
      | none => ([] : List Nat)) = (walkFlag pm buttons p).toList := by
  rcases hpm : pm p with _ | w <;> simp only [walkFlag, hpm]
  · rfl
  · split <;> rfl

lemma ancestryWalk_eq_chain (pm : Int → Option WindowInfo) (buttons : List Nat)
    (anc : Int → Option (Option Int)) :
    ∀ (fuel : Nat) (p : Int), walkTerminates anc fuel p = true →
    ancestryWalk pm buttons anc fuel p
      = ((ancestryChain anc fuel p).filterMap (walkFlag pm buttons),
         (ancestryChain anc fuel p).length) := by
  intro fuel
  induction fuel with
  | zero =>
      intro p ht
      exact absurd ht (by simp [walkTerminates])
  | succ n ih =>
      intro p ht
      rw [walkTerminates] at ht
      rcases hq : anc p with _ | op
      · rw [hq] at ht
        simp only [ancestryWalk, ancestryChain, hq]
        rw [walkFlag_toList]
        rcases hf : walkFlag pm buttons p with _ | i <;>
          simp [List.filterMap_cons, hf]
      · rcases op with _ | parent
        · rw [hq] at ht
          simp only [ancestryWalk, ancestryChain, hq]
          rw [walkFlag_toList]
          rcases hf : walkFlag pm buttons p with _ | i <;>
            simp [List.filterMap_cons, hf]
        · rw [hq] at ht
          simp only [ancestryWalk, ancestryChain, hq]
          rw [ih parent ht, walkFlag_toList]
          rcases hf : walkFlag pm buttons p with _ | i <;>
            simp [List.filterMap_cons, hf, List.length_cons]

/-- C6, counterexample.  The claim says the walk "flags as urgent every
window owned by that process or any of its ancestors whose is_focused is
false", but the code only marks windows whose id currently has a button
(`self.buttons.get`): a notification from pid 50 while the unfocused window
owned by pid 50 has no button flags nothing. -/
theorem C6_counterexample :
    handleNotification
        (some [⟨⟨1, none, none, some 50, some 10, false, ⟨none⟩⟩, none⟩]) []
        ⟨true, false, []⟩ (fun p => if p = 50 then some none else none) 5
        ⟨some 50, none⟩ = []
    ∧ processMapLookup [⟨⟨1, none, none, some 50, some 10, false, ⟨none⟩⟩, none⟩] 50
        = some ⟨⟨1, none, none, some 50, some 10, false, ⟨none⟩⟩, none⟩
    ∧ (⟨⟨1, none, none, some 50, some 10, false, ⟨none⟩⟩, none⟩ : WindowInfo).inner.is_focused
        = false :=
  ⟨rfl, rfl, rfl⟩

/-- C6, amended: provided the ancestry walk reaches a no-parent or failed
lookup within `fuel` steps, (a) the ids flagged by the walk are exactly, in
chain order, the windows owned by the notifying process or one of its
ancestors that are not focused *and whose id has a button* (every such
ancestor is flagged, not only the nearest); (b) the walk performs exactly one
ancestry lookup per visited pid, stopping at the first no-parent or failed
lookup; (c) if the walk flagged at least one window, `handle_notification`
returns exactly those flags and desktop-entry matching is not attempted. -/
theorem C6_ancestry_walk (windows : List WindowInfo) (buttons : List Nat)
    (settings : NotifSettings) (anc : Int → Option (Option Int)) (fuel : Nat)
    (p : Int) (de : Option String)
    (ht : walkTerminates anc fuel p = true) :
    (ancestryWalk (processMapLookup windows) buttons anc fuel p).1
        = (ancestryChain anc fuel p).filterMap (walkFlag (processMapLookup windows) buttons)
    ∧ (ancestryWalk (processMapLookup windows) buttons anc fuel p).2
        = (ancestryChain anc fuel p).length
    ∧ ((ancestryWalk (processMapLookup windows) buttons anc fuel p).1 ≠ [] →
        handleNotification (some windows) buttons settings anc fuel ⟨some p, de⟩
          = (ancestryWalk (processMapLookup windows) buttons anc fuel p).1) := by
  have h := ancestryWalk_eq_chain (processMapLookup windows) buttons anc fuel p ht
  refine ⟨by rw [h], by rw [h], ?_⟩
  intro hne
  simp only [handleNotification]
  rw [if_pos (by simpa using List.isEmpty_eq_false.mpr hne)]

/-- C6, witness: process 50 has parent 40, process 40 has no parent, window 7
(with a button) is owned by pid 40 and unfocused: the walk flags window 7
after exactly two ancestry lookups, and `handle_notification` returns it
without consulting desktop-entry matching. -/
theorem C6_ancestry_walk_witness :
    (ancestryWalk
        (processMapLookup [⟨⟨7, none, none, some 40, some 10, false, ⟨none⟩⟩, none⟩])
        [7] (fun p => if p = 50 then some (some 40) else if p = 40 then some none else none)
        5 50).1 = [7]
    ∧ (ancestryWalk
        (processMapLookup [⟨⟨7, none, none, some 40, some 10, false, ⟨none⟩⟩, none⟩])
        [7] (fun p => if p = 50 then some (some 40) else if p = 40 then some none else none)
        5 50).2 = 2
    ∧ handleNotification
        (some [⟨⟨7, none, none, some 40, some 10, false, ⟨none⟩⟩, none⟩]) [7]
        ⟨true, false, []⟩
        (fun p => if p = 50 then some (some 40) else if p = 40 then some none else none)
        5 ⟨some 50, none⟩ = [7] := by
  have h := C6_ancestry_walk
    [⟨⟨7, none, none, some 40, some 10, false, ⟨none⟩⟩, none⟩] [7]
    ⟨true, false, []⟩
    (fun p => if p = 50 then some (some 40) else if p = 40 then some none else none)
    5 50 none (by decide)
  refine ⟨?_, ?_, ?_⟩
  · rw [h.1]; decide
  · rw [h.2.1]; decide
  · rw [h.2.2 (by rw [h.1]; decide), h.1]; decide

/-! ### C7 and C8: the desktop-entry scan -/

lemma scanStep_exact_mono (buttons : List Nat) (fe : Bool) (mapped el es : String)
    (st : ScanState) (v : WindowInfo) (h : st.exact_match = true) :
    (scanStep buttons fe mapped el es st v).exact_match = true := by
  rcases hav : v.inner.app_id with _ | app <;> simp only [scanStep, hav]
  · exact h
  · repeat' split
    all_goals first | rfl | exact h

lemma scan_exact_mono (buttons : List Nat) (fe : Bool) (mapped el es : String) :
    ∀ (l : List WindowInfo) (st : ScanState), st.exact_match = true →
    (l.foldl (scanStep buttons fe mapped el es) st).exact_match = true := by
  intro l
  induction l with
  | nil => intro st h; exact h
  | cons v t ih =>
      intro st h
      rw [List.foldl_cons]
      exact ih _ (scanStep_exact_mono buttons fe mapped el es st v h)

lemma scan_exact_of_mem (buttons : List Nat) (fe : Bool) (mapped el es : String) :
    ∀ (l : List WindowInfo) (st : ScanState),
      (∃ w ∈ l, w.inner.app_id = some mapped ∧ buttons.contains w.inner.id = true) →
      (l.foldl (scanStep buttons fe mapped el es) st).exact_match = true := by
  intro l
  induction l with
  | nil =>
      rintro st ⟨w, hw, _⟩
      exact absurd hw (List.not_mem_nil w)
  | cons v t ih =>
      rintro st ⟨w, hw, happ, hbtn⟩
      rw [List.foldl_cons]
      rcases List.mem_cons.mp hw with rfl | hwt
      · refine scan_exact_mono buttons fe mapped el es t _ ?_
        simp only [scanStep, happ]
        rw [if_pos (beq_self_eq_true mapped), if_pos hbtn]
      · exact ih _ ⟨w, hwt, happ, hbtn⟩

lemma scanStep_flagged_cases (buttons : List Nat) (fe : Bool) (mapped el es : String)
    (st : ScanState) (v : WindowInfo) :
    (scanStep buttons fe mapped el es st v).flagged = st.flagged
    ∨ ((scanStep buttons fe mapped el es st v).flagged = st.flagged ++ [v.inner.id]
        ∧ v.inner.app_id = some mapped) := by
  rcases hav : v.inner.app_id with _ | app <;> simp only [scanStep, hav]
  · exact Or.inl trivial
  · by_cases hm : (app == mapped) = true
    · rw [if_pos hm]
      by_cases hb : buttons.contains v.inner.id = true
      · rw [if_pos hb]
        exact Or.inr ⟨rfl, by rw [beq_iff_eq.mp hm]⟩
      · rw [if_neg hb]
        exact Or.inl rfl
    · rw [if_neg hm]
      left
      repeat' split
      all_goals rfl

lemma scan_flagged_sources (buttons : List Nat) (fe : Bool) (mapped el es : String) :
    ∀ (l : List WindowInfo) (st : ScanState) (i : Nat),
      i ∈ (l.foldl (scanStep buttons fe mapped el es) st).flagged →
      i ∈ st.flagged ∨ ∃ w ∈ l, w.inner.id = i ∧ w.inner.app_id = some mapped := by
  intro l
  induction l with
  | nil => intro st i h; exact Or.inl h
  | cons v t ih =>
      intro st i h
      rw [List.foldl_cons] at h
      rcases ih _ i h with hst | ⟨w, hw, hid, happ⟩
      · rcases scanStep_flagged_cases buttons fe mapped el es st v with hc | ⟨hc, happv⟩
        · rw [hc] at hst
          exact Or.inl hst
        · rw [hc] at hst
          rcases List.mem_append.mp hst with h1 | h2
          · exact Or.inl h1
          · exact Or.inr ⟨v, List.mem_cons_self v t, (List.mem_singleton.mp h2).symm, happv⟩
      · exact Or.inr ⟨w, List.mem_cons_of_mem v hw, hid, happ⟩

/-- C7, counterexample.  The claim says an exact, case-sensitive app-id match
suppresses all fuzzy flags; but the code sets `exact_match` only when the
exactly-matching window currently has a button, so with an exact matcher
(window 1, no button) and a fuzzy matcher (window 2, button), window 2 is
still flagged via fuzzy matching. -/
theorem C7_counterexample :
    handleNotification
        (some [⟨⟨1, none, some "App", none, some 10, false, ⟨none⟩⟩, none⟩,
               ⟨⟨2, none, some "app", none, some 10, false, ⟨none⟩⟩, none⟩]) [2]
        ⟨true, true, []⟩ (fun _ => none) 0 ⟨none, some "App"⟩ = [2]
    ∧ (⟨⟨1, none, some "App", none, some 10, false, ⟨none⟩⟩, none⟩ : WindowInfo).inner.app_id
        = some "App"
    ∧ (⟨⟨2, none, some "app", none, some 10, false, ⟨none⟩⟩, none⟩ : WindowInfo).inner.app_id
        ≠ some "App" :=
  ⟨rfl, rfl, by decide⟩

/-- C7, amended: if some window whose id currently has a button matches the
mapped desktop entry exactly (case-sensitively), then every id flagged by
`handle_notification` for that notification belongs to a window whose app id
is exactly the mapped entry — no window is flagged via fuzzy matching, even
with fuzzy matching enabled.  (Without the button condition the claim fails,
see the counterexample.) -/
theorem C7_exact_suppresses_fuzzy (windows : List WindowInfo) (buttons : List Nat)
    (settings : NotifSettings) (anc : Int → Option (Option Int)) (fuel : Nat)
    (de : String)
    (hex : ∃ w ∈ windows,
      w.inner.app_id = some ((appMapLookup settings.map_app_ids de).getD de)
        ∧ buttons.contains w.inner.id = true) :
    ∀ i ∈ handleNotification (some windows) buttons settings anc fuel ⟨none, some de⟩,
      ∃ w ∈ windows, w.inner.id = i
        ∧ w.inner.app_id = some ((appMapLookup settings.map_app_ids de).getD de) := by
  intro i hi
  simp only [handleNotification] at hi
  by_cases hde : settings.use_desktop_entry = true
  · simp only [hde, List.isEmpty_nil, Bool.not_true, Bool.false_eq_true, if_false,
      Bool.not_false, if_true, List.nil_append] at hi
    simp only [desktopEntryPhase] at hi
    have hexct := scan_exact_of_mem buttons settings.use_fuzzy_matching
      ((appMapLookup settings.map_app_ids de).getD de)
      (lowerStr ((appMapLookup settings.map_app_ids de).getD de))
      (lowerStr (lastSegment ((appMapLookup settings.map_app_ids de).getD de)))
      windows ⟨[], false, []⟩ hex
    rw [if_neg (by simp [hexct])] at hi
    rcases scan_flagged_sources buttons settings.use_fuzzy_matching
        ((appMapLookup settings.map_app_ids de).getD de)
        (lowerStr ((appMapLookup settings.map_app_ids de).getD de))
        (lowerStr (lastSegment ((appMapLookup settings.map_app_ids de).getD de)))
        windows ⟨[], false, []⟩ i hi with h0 | hgood
    · exact absurd h0 (List.not_mem_nil i)
    · exact hgood
  · have hde' : settings.use_desktop_entry = false := by
      rcases h : settings.use_desktop_entry
      · rfl
      · exact absurd h hde
    simp [hde'] at hi

/-- C7, witness: with both the exact matcher (window 1) and the fuzzy
candidate (window 2) having buttons, window 2 is not flagged. -/
theorem C7_exact_suppresses_fuzzy_witness :
    ¬ (2 ∈ handleNotification
        (some [⟨⟨1, none, some "App", none, some 10, false, ⟨none⟩⟩, none⟩,
               ⟨⟨2, none, some "app", none, some 10, false, ⟨none⟩⟩, none⟩]) [1, 2]
        ⟨true, true, []⟩ (fun _ => none) 0 ⟨none, some "App"⟩) := by
  intro h
  obtain ⟨w, hw, hid, happ⟩ := C7_exact_suppresses_fuzzy
    [⟨⟨1, none, some "App", none, some 10, false, ⟨none⟩⟩, none⟩,
     ⟨⟨2, none, some "app", none, some 10, false, ⟨none⟩⟩, none⟩] [1, 2]
    ⟨true, true, []⟩ (fun _ => none) 0 "App"
    ⟨⟨⟨1, none, some "App", none, some 10, false, ⟨none⟩⟩, none⟩,
      List.mem_cons_self _ _, by decide, by decide⟩ 2 h
  simp only [List.mem_cons, List.mem_singleton] at hw
  rcases hw with rfl | hw1
  · exact absurd hid (by decide)
  · rcases hw1 with rfl | hw2
    · exact absurd happ (by decide)
    · exact absurd hw2 (List.not_mem_nil w)

/-- With fuzzy matching enabled and no window matching the mapped entry
exactly, the scan leaves `flagged` and `exact_match` untouched and collects
as fuzzy candidates exactly the windows matching case-insensitively or by
dotted suffix (the latter only when the app id contains a dot). -/
lemma scan_no_exact (buttons : List Nat) (mapped el es : String) :
    ∀ (l : List WindowInfo) (st : ScanState),
      (∀ w ∈ l, w.inner.app_id ≠ some mapped) →
      l.foldl (scanStep buttons true mapped el es) st
        = ⟨st.flagged, st.exact_match,
           st.fuzzy_matches ++ l.filterMap (fun w => w.inner.app_id.bind (fun app =>
             if (lowerStr app == el)
                 || (containsDot app && (lowerStr (lastSegment app) == es))
               then some w.inner.id else none))⟩ := by
  intro l
  induction l with
  | nil =>
      intro st h
      simp
  | cons v t ih =>
      intro st h
      rw [List.foldl_cons]
      have htail : ∀ w ∈ t, w.inner.app_id ≠ some mapped :=
        fun w hw => h w (List.mem_cons_of_mem v hw)
      rcases hav : v.inner.app_id with _ | app
      · have hstep : scanStep buttons true mapped el es st v = st := by
          simp [scanStep, hav]
        rw [hstep, ih st htail]
        simp [List.filterMap_cons, hav]
      · have hm : (app == mapped) = false := by
          rcases hbv : app == mapped
          · rfl
          · exact absurd (hav.trans (by rw [beq_iff_eq.mp hbv]))
              (h v (List.mem_cons_self v t))
        by_cases h1 : (lowerStr app == el) = true
        · have h1p : lowerStr app = el := beq_iff_eq.mp h1
          have hstep : scanStep buttons true mapped el es st v
              = { st with fuzzy_matches := st.fuzzy_matches ++ [v.inner.id] } := by
            simp [scanStep, hav, hm, h1]
          rw [hstep, ih _ htail]
          simp [List.filterMap_cons, hav, h1p, List.append_assoc]
        · have h1n : ¬ lowerStr app = el := fun hh => h1 (beq_iff_eq.mpr hh)
          by_cases h2 : containsDot app = true
          · by_cases h3 : (lowerStr (lastSegment app) == es) = true
            · have h3p : lowerStr (lastSegment app) = es := beq_iff_eq.mp h3
              have hstep : scanStep buttons true mapped el es st v
                  = { st with fuzzy_matches := st.fuzzy_matches ++ [v.inner.id] } := by
                simp [scanStep, hav, hm, h1, h2, h3]
              rw [hstep, ih _ htail]
              simp [List.filterMap_cons, hav, h1n, h2, h3p, List.append_assoc]
            · have h3n : ¬ lowerStr (lastSegment app) = es :=
                fun hh => h3 (beq_iff_eq.mpr hh)
              have hstep : scanStep buttons true mapped el es st v = st := by
                simp [scanStep, hav, hm, h1, h2, h3]
              rw [hstep, ih st htail]
              simp [List.filterMap_cons, hav, h1n, h2, h3n]
          · have h2n : containsDot app = false := by
              rcases hbv : containsDot app
              · rfl
              · exact absurd hbv h2
            have hstep : scanStep buttons true mapped el es st v = st := by
              simp [scanStep, hav, hm, h1, h2]
            rw [hstep, ih st htail]
            simp [List.filterMap_cons, hav, h1n, h2n]

/-- With fuzzy matching disabled and no exact match, the scan is a no-op. -/
lemma scan_no_exact_off (buttons : List Nat) (mapped el es : String) :
    ∀ (l : List WindowInfo) (st : ScanState),
      (∀ w ∈ l, w.inner.app_id ≠ some mapped) →
      l.foldl (scanStep buttons false mapped el es) st = st := by
  intro l
  induction l with
  | nil => intro st _; rfl
  | cons v t ih =>
      intro st h
      rw [List.foldl_cons]
      have hstep : scanStep buttons false mapped el es st v = st := by
        rcases hav : v.inner.app_id with _ | app
        · simp [scanStep, hav]
        · have hm : (app == mapped) = false := by
            rcases hbv : app == mapped
            · rfl
            · exact absurd (hav.trans (by rw [beq_iff_eq.mp hbv]))
                (h v (List.mem_cons_self v t))
          simp [scanStep, hav, hm]
      rw [hstep]
      exact ih st (fun w hw => h w (List.mem_cons_of_mem v hw))

/-- Restricting the collected fuzzy candidates to those with a button can be
fused into the collection predicate. -/
lemma filter_contains_filterMap (buttons : List Nat) (P : String → Bool) :
    ∀ l : List WindowInfo,
      (l.filterMap (fun w => w.inner.app_id.bind (fun app =>
          if P app then some w.inner.id else none))).filter
        (fun i => buttons.contains i)
      = l.filterMap (fun w => w.inner.app_id.bind (fun app =>
          if P app && buttons.contains w.inner.id then some w.inner.id else none)) := by
  intro l
  induction l with
  | nil => rfl
  | cons v t ih =>
      simp only [] at ih
      rcases hav : v.inner.app_id with _ | app
      · simp only [List.filterMap_cons, hav]
        exact ih
      · simp at ih
        by_cases hp : P app = true
        · by_cases hb : buttons.contains v.inner.id = true
          · have hbp : v.inner.id ∈ buttons := by simpa using hb
            simp [List.filterMap_cons, hav, hp, hbp, List.filter_cons, ih]
          · have hbn : ¬ v.inner.id ∈ buttons := by simpa using hb
            simp [List.filterMap_cons, hav, hp, hbn, List.filter_cons, ih]
        · simp [List.filterMap_cons, hav, hp, ih]

/-- C8, counterexample.  The claim says any window whose last dot-delimited
segment equals the entry's last segment case-insensitively is collected and
flagged; but the code applies the suffix rule only to app ids that contain a
dot: app id `"app"` (its own last segment, equal to the last segment of
`"org.example.App"` case-insensitively) is not flagged even with fuzzy
matching enabled and a button present. -/
theorem C8_counterexample :
    handleNotification
        (some [⟨⟨1, none, some "app", none, some 10, false, ⟨none⟩⟩, none⟩]) [1]
        ⟨true, true, []⟩ (fun _ => none) 0 ⟨none, some "org.example.App"⟩ = []
    ∧ lowerStr (lastSegment "app") = lowerStr (lastSegment "org.example.App")
    ∧ containsDot "app" = false :=
  ⟨rfl, rfl, rfl⟩

/-- C8, amended: with fuzzy matching enabled and no exact match present, the
flagged ids are exactly the windows whose app id equals the mapped entry
case-insensitively, or whose app id *contains a dot* and whose last
dot-delimited segment equals the mapped entry's last segment
case-insensitively — restricted to windows whose id has a button; with fuzzy
matching disabled, no window is flagged. -/
theorem C8_fuzzy_collection (windows : List WindowInfo) (buttons : List Nat)
    (settings : NotifSettings) (anc : Int → Option (Option Int)) (fuel : Nat)
    (de : String)
    (hne : ∀ w ∈ windows,
      w.inner.app_id ≠ some ((appMapLookup settings.map_app_ids de).getD de)) :
    (settings.use_desktop_entry = true → settings.use_fuzzy_matching = true →
      handleNotification (some windows) buttons settings anc fuel ⟨none, some de⟩
        = windows.filterMap (fun w => w.inner.app_id.bind (fun app =>
            if ((lowerStr app == lowerStr ((appMapLookup settings.map_app_ids de).getD de))
                || (containsDot app
                    && (lowerStr (lastSegment app)
                        == lowerStr (lastSegment ((appMapLookup settings.map_app_ids de).getD de)))))
               && buttons.contains w.inner.id
            then some w.inner.id else none)))
    ∧ (settings.use_fuzzy_matching = false →
        handleNotification (some windows) buttons settings anc fuel ⟨none, some de⟩ = []) := by
  constructor
  · intro hde hfz
    have key : desktopEntryPhase settings buttons windows de
        = windows.filterMap (fun w => w.inner.app_id.bind (fun app =>
            if ((lowerStr app == lowerStr ((appMapLookup settings.map_app_ids de).getD de))
                || (containsDot app
                    && (lowerStr (lastSegment app)
                        == lowerStr (lastSegment ((appMapLookup settings.map_app_ids de).getD de)))))
               && buttons.contains w.inner.id
            then some w.inner.id else none)) := by
      simp only [desktopEntryPhase]
      rw [hfz, scan_no_exact buttons _ _ _ windows ⟨[], false, []⟩ hne]
      simp only [Bool.not_false, if_true, List.nil_append]
      exact filter_contains_filterMap buttons _ windows
    simp only [handleNotification, hde, List.isEmpty_nil, Bool.not_true,
      Bool.false_eq_true, if_false, Bool.not_false, if_true, List.nil_append]
    exact key
  · intro hfz
    by_cases hde : settings.use_desktop_entry = true
    · have key : desktopEntryPhase settings buttons windows de = [] := by
        simp only [desktopEntryPhase]
        rw [hfz, scan_no_exact_off buttons _ _ _ windows ⟨[], false, []⟩ hne]
        simp
      simp only [handleNotification, hde, List.isEmpty_nil, Bool.not_true,
        Bool.false_eq_true, if_false, Bool.not_false, if_true, List.nil_append]
      exact key
    · have hde' : settings.use_desktop_entry = false := by
        rcases h : settings.use_desktop_entry
        · rfl
        · exact absurd h hde
      simp [handleNotification, hde']

/-- C8, witness: desktop entry `"org.example.App"`, window app id
`"io.other.App"` (with a button): flagged with fuzzy matching enabled via the
shared case-insensitive suffix `"app"`, not flagged with fuzzy matching
disabled. -/
theorem C8_fuzzy_collection_witness :
    handleNotification
        (some [⟨⟨1, none, some "io.other.App", none, some 10, false, ⟨none⟩⟩, none⟩]) [1]
        ⟨true, true, []⟩ (fun _ => none) 0 ⟨none, some "org.example.App"⟩ = [1]
    ∧ handleNotification
        (some [⟨⟨1, none, some "io.other.App", none, some 10, false, ⟨none⟩⟩, none⟩]) [1]
        ⟨true, false, []⟩ (fun _ => none) 0 ⟨none, some "org.example.App"⟩ = [] := by
  constructor
  · rw [(C8_fuzzy_collection
        [⟨⟨1, none, some "io.other.App", none, some 10, false, ⟨none⟩⟩, none⟩] [1]
        ⟨true, true, []⟩ (fun _ => none) 0 "org.example.App" (by decide)).1 rfl rfl]
    rfl
  · exact (C8_fuzzy_collection
      [⟨⟨1, none, some "io.other.App", none, some 10, false, ⟨none⟩⟩, none⟩] [1]
      ⟨true, false, []⟩ (fun _ => none) 0 "org.example.App" (by decide)).2 rfl

end NiriWindowButtons
